import Mathlib

/-!
Shallow embedding of the DOT-code normalizer and structural validator of
`backend/core/utils.py` (functions `clean_dot_code`, `fix_color_attributes`,
`fix_unsupported_colors`, `validate_dot_syntax`).

Strings are modelled as `List Char`.  Python's regular-expression passes are
embedded as executable scanners that reproduce the exact matching behaviour
of the patterns appearing in the source (leftmost match, greedy/lazy
quantifiers, backtracking over the attribute-chunk loops, word boundaries,
and the `$`-before-final-newline rule), specialised to those fixed patterns.
-/

namespace LexiGraph

/-- ASCII whitespace, as stripped by Python's `str.strip()` and matched by
the regex class `\s` on the ASCII inputs modelled here. -/
def pyIsSpace (c : Char) : Bool :=
  c == ' ' || c == '\t' || c == '\n' || c == '\r' || c == '\x0b' || c == '\x0c'

/-- ASCII word characters, the regex class `\w`. -/
def isWordChar (c : Char) : Bool :=
  c.isAlpha || c.isDigit || c == '_'

/-- ASCII lowering, as done by Python's `str.lower()` on ASCII text. -/
def pyToLower (c : Char) : Char :=
  if c.toNat ≥ 65 ∧ c.toNat ≤ 90 then Char.ofNat (c.toNat + 32) else c

def lowerList (l : List Char) : List Char := l.map pyToLower

/-- Python `str.strip()`: drop whitespace from both ends. -/
def pyStrip (l : List Char) : List Char :=
  ((l.dropWhile pyIsSpace).reverse.dropWhile pyIsSpace).reverse

/-- Case-insensitive "starts with `lit`" (with `lit` stored lowercase). -/
def ciStarts (lit : List Char) (s : List Char) : Bool :=
  lowerList (s.take lit.length) == lit

/-- Case-insensitive "ends with `lit`" (with `lit` stored lowercase). -/
def ciEnds (lit : List Char) (s : List Char) : Bool :=
  lit.isSuffixOf (lowerList s)

/-- Python's substring operator `lit in s`. -/
def containsLit (lit : List Char) : List Char → Bool
  | [] => lit.isEmpty
  | c :: cs => lit.isPrefixOf (c :: cs) || containsLit lit cs

def tickChar : Char := '\x60'
def nlChar : Char := '\n'
def colonChar : Char := ':'
def dotChar : Char := '.'
def bangChar : Char := '!'
def commaChar : Char := ','
def spaceChar : Char := ' '
def lbrChar : Char := '['
def rbrChar : Char := ']'
def lcurlChar : Char := '\x7b'
def rcurlChar : Char := '\x7d'
def quoteChar : Char := '\"'
def squoteChar : Char := '\''

def tickLitS : String := "```"
def tickLit : List Char := tickLitS.data
def dotTagS : String := "dot"
def dotTag : List Char := dotTagS.data
def gvTagS : String := "graphviz"
def gvTag : List Char := gvTagS.data
def pre1S : String := "here's the dot code"
def pre1 : List Char := pre1S.data
def pre2S : String := "the dot code is"
def pre2 : List Char := pre2S.data
def pre3S : String := "dot code"
def pre3 : List Char := pre3S.data
def pre4S : String := "graph"
def pre4 : List Char := pre4S.data
def pre5S : String := "here is the digraph"
def pre5 : List Char := pre5S.data
def suf1S : String := "this creates the knowledge graph"
def suf1 : List Char := suf1S.data
def suf2S : String := "the graph is now ready"
def suf2 : List Char := suf2S.data
def suf3S : String := "hope this helps"
def suf3 : List Char := suf3S.data
def diLitS : String := "digraph"
def diLit : List Char := diLitS.data
def gLitS : String := "graph"
def gLit : List Char := gLitS.data

/-! ## Stage 1: markdown fence extraction

Pattern 1 of `clean_dot_code`:
`` ```(?:dot|graphviz|DOT)?\s*\n?(.*?)\n?``` `` with `re.DOTALL | re.IGNORECASE`.
-/

/-- Does the text start with three backticks? -/
def tripleAt (t : List Char) : Bool := tickLit.isPrefixOf t

/-- Length of the optional language tag consumed right after the opening
fence: the alternation `(?:dot|graphviz|DOT)?`, case-insensitive, first
alternative wins. -/
def fenceTagLen (t : List Char) : Nat :=
  if ciStarts dotTag t then 3 else if ciStarts gvTag t then 8 else 0

/-- Lazy scan for the closing fence `\n?\x60\x60\x60`; returns the interior
(group 1 of the pattern), which excludes one newline directly before the
closing backticks. -/
def findClose : List Char → Option (List Char)
  | [] => none
  | c :: cs =>
    if tripleAt (c :: cs) then some []
    else if c == nlChar && tripleAt cs then some []
    else
      match findClose cs with
      | some i => some (c :: i)
      | none => none

/-- Attempt the remainder of the fence pattern after an opening `` ``` ``:
optional tag, greedy `\s*` (after which `\n?` is necessarily empty), then
the lazy interior up to the closing fence. -/
def fenceFrom (t : List Char) : Option (List Char) :=
  findClose ((t.drop (fenceTagLen t)).dropWhile pyIsSpace)

/-- Leftmost match of the fenced-block pattern; returns group 1. -/
def fenceSearch : List Char → Option (List Char)
  | [] => none
  | c :: cs =>
    if tripleAt (c :: cs) then
      match fenceFrom (cs.drop 2) with
      | some i => some i
      | none => fenceSearch cs
    else fenceSearch cs

/-- Stage 1 of `clean_dot_code`: if a fenced block is found, keep only the
stripped interior of the first one. -/
def fenceStage (s : List Char) : List Char :=
  match fenceSearch s with
  | some g => pyStrip g
  | none => s

/-! ## Stage 2: leftover backtick trim

`re.sub(r'^\x60+|\x60+$', '', cleaned).strip()`.  An unanchored `$` in
Python also matches just before one final newline, which the model keeps.
-/

/-- Split off a single trailing newline, before which `$` may match. -/
def dollarSplit (l : List Char) : List Char × List Char :=
  match l.getLast? with
  | some c => if c == nlChar then (l.dropLast, [nlChar]) else (l, [])
  | none => (l, [])

def dropTicksFront (l : List Char) : List Char := l.dropWhile (· == tickChar)

def dropTicksBack (l : List Char) : List Char :=
  let p := dollarSplit l
  (p.1.reverse.dropWhile (· == tickChar)).reverse ++ p.2

def tickStage (l : List Char) : List Char :=
  pyStrip (dropTicksBack (dropTicksFront l))

/-! ## Stage 3: conversational prefix removal

Five patterns of the shape `^LIT:?\s*`, case-insensitive, each followed by
`.strip()`.  `^` without `re.MULTILINE` matches only at position 0.
-/

def stripPreOne (lit : List Char) (s : List Char) : List Char :=
  if ciStarts lit s then
    let r := s.drop lit.length
    let r := match r with
      | c :: t => if c == colonChar then t else c :: t
      | [] => []
    pyStrip (r.dropWhile pyIsSpace)
  else pyStrip s

def preStage (s : List Char) : List Char :=
  stripPreOne pre5 (stripPreOne pre4 (stripPreOne pre3 (stripPreOne pre2 (stripPreOne pre1 s))))

/-! ## Stage 4: conversational suffix removal

Patterns `\s*LIT\.?$` (and `\s*LIT!?\.?$` for the last one), case-insensitive,
each followed by `.strip()`.  Because the whole match is deleted and the
result is stripped, removing the literal-plus-punctuation suffix and then
stripping is equivalent to deleting the full match.
-/

def stripSufDot (lit : List Char) (s : List Char) : List Char :=
  let p := dollarSplit s
  let b := p.1
  let b2 :=
    if ciEnds (lit ++ [dotChar]) b then b.take (b.length - (lit.length + 1))
    else if ciEnds lit b then b.take (b.length - lit.length)
    else b
  pyStrip (b2 ++ p.2)

def stripSufBangDot (lit : List Char) (s : List Char) : List Char :=
  let p := dollarSplit s
  let b := p.1
  let b2 :=
    if ciEnds (lit ++ [bangChar, dotChar]) b then b.take (b.length - (lit.length + 2))
    else if ciEnds (lit ++ [bangChar]) b then b.take (b.length - (lit.length + 1))
    else if ciEnds (lit ++ [dotChar]) b then b.take (b.length - (lit.length + 1))
    else b
  pyStrip (b2 ++ p.2)

def sufStage (s : List Char) : List Char :=
  stripSufBangDot suf3 (stripSufDot suf2 (stripSufDot suf1 s))

/-! ## Stage 5: keyword anchoring

`re.match(r'^\s*(di)?graph\s+', ...)` and, failing that,
`re.search(r'((?:di)?graph\s+.*)', ..., re.DOTALL | re.IGNORECASE)`;
group 1 of the search is the whole remainder of the text.
-/

/-- Is there a whitespace character right after position `n`? -/
def wsAfterAt (t : List Char) (n : Nat) : Bool :=
  match (t.drop n).head? with
  | some c => pyIsSpace c
  | none => false

/-- The text begins (case-insensitively) with `graph` followed by whitespace. -/
def graphKwSpaceAt (t : List Char) : Bool :=
  ciStarts gLit t && wsAfterAt t 5

/-- The pattern `(di)?graph\s+` matches at the start of `t`. -/
def matchKwAt (t : List Char) : Bool :=
  (ciStarts diLit t && wsAfterAt t 7) || (ciStarts gLit t && wsAfterAt t 5)

/-- Leftmost occurrence of `(?:di)?graph\s+`; returns the rest of the text
from the match position (group 1 with the trailing `.*` under `re.DOTALL`). -/
def searchGraph : List Char → Option (List Char)
  | [] => none
  | c :: cs => if matchKwAt (c :: cs) then some (c :: cs) else searchGraph cs

/-- The anchored `^\s*(di)?graph\s+` test. -/
def matchStartGraph (s : List Char) : Bool :=
  matchKwAt (s.dropWhile pyIsSpace)

def anchorStage (s : List Char) : List Char :=
  if matchStartGraph s then s
  else
    match searchGraph s with
    | some r => r
    | none => s

/-! ## Generic `re.sub` driver

Scans left to right; on a match, emits the replacement and continues after
the matched span; otherwise emits one character and advances.  The fuel is
instantiated with the input length, which bounds the number of steps since
every step consumes at least one character.
-/

def reSubFuel (m : List Char → Option (List Char × List Char)) :
    Nat → List Char → List Char
  | 0, s => s
  | _ + 1, [] => []
  | n + 1, c :: cs =>
    match m (c :: cs) with
    | some (rep, rest) => rep ++ reSubFuel m n rest
    | none => c :: reSubFuel m n cs

def reSubAll (m : List Char → Option (List Char × List Char)) (s : List Char) :
    List Char :=
  reSubFuel m s.length s

/-! ## `fix_color_attributes`

Patterns of the rewrite `color=lightXXX → fillcolor=lightXXX`:
`(\w+\s*\[(?:[^,\]]*,\s*)*)(color=light\w+)((?:\s*,\s*[^,\]]*)*\])` and the
double-quoted variant, both without flags, followed by the
`(\w+\s*\[)([^\]]+)(\])` pass that appends `fontcolor=black`.
-/

def colorLightS : String := "color=light"
def colorLight : List Char := colorLightS.data
def fillS : String := "fill"
def fillStr : List Char := fillS.data
def styleFilledS : String := "style=filled"
def styleFilled : List Char := styleFilledS.data
def styleFilledQS : String := "style=\"filled\""
def styleFilledQ : List Char := styleFilledQS.data
def fontcolorEqS : String := "fontcolor="
def fontcolorEq : List Char := fontcolorEqS.data
def fillcolorEqS : String := "fillcolor="
def fillcolorEq : List Char := fillcolorEqS.data
def colorEqS : String := "color="
def colorEq : List Char := colorEqS.data
def spFontBlackS : String := " fontcolor=black"
def spFontBlack : List Char := spFontBlackS.data
def commaFontBlackS : String := ", fontcolor=black"
def commaFontBlack : List Char := commaFontBlackS.data

/-- One attribute segment `[^,\]]*`: greedy run without commas or closing
brackets. -/
def takeSeg (t : List Char) : List Char :=
  t.takeWhile (fun c => c != commaChar && c != rbrChar)

/-- All stopping points of the greedy loop `(?:[^,\]]*,\s*)*` inside a
bracket, listed from zero chunks upward, each with the text consumed so far
and the remaining text. -/
def chunkBoundaries : Nat → List Char → List (List Char × List Char)
  | 0, t => [([], t)]
  | n + 1, t =>
    let seg := takeSeg t
    match t.drop seg.length with
    | c :: r =>
      if c == commaChar then
        let u := r.takeWhile pyIsSpace
        let cons := seg ++ c :: u
        ([], t) :: (chunkBoundaries n (r.drop u.length)).map fun p => (cons ++ p.1, p.2)
      else [([], t)]
    | [] => [([], t)]

/-- Group 3, `(?:\s*,\s*[^,\]]*)*\]`: after zero chunks the bracket must be
immediate; each further chunk needs a comma after optional whitespace.
Returns the consumed text (closing bracket included) and the rest. -/
def parseG3 : Nat → List Char → Option (List Char × List Char)
  | fuel, t =>
    match t with
    | c :: r =>
      if c == rbrChar then some ([c], r)
      else
        match fuel with
        | 0 => none
        | n + 1 =>
          let u1 := t.takeWhile pyIsSpace
          match t.drop u1.length with
          | d :: r2 =>
            if d == commaChar then
              let u2 := r2.takeWhile pyIsSpace
              let rest0 := r2.drop u2.length
              let seg := takeSeg rest0
              match parseG3 n (rest0.drop seg.length) with
              | some p => some (u1 ++ d :: u2 ++ seg ++ p.1, p.2)
              | none => none
            else none
          | [] => none
    | [] => none

/-- Group 2 (unquoted) at a chunk boundary: `color=light\w+`, rewritten to
`fillcolor=light\w+`, then group 3. -/
def tryRewrite (fuel : Nat) (t : List Char) : Option (List Char × List Char) :=
  if colorLight.isPrefixOf t then
    let t2 := t.drop colorLight.length
    let w2 := t2.takeWhile isWordChar
    if w2.isEmpty then none
    else
      match parseG3 fuel (t2.drop w2.length) with
      | some p => some (fillStr ++ colorLight ++ w2 ++ p.1, p.2)
      | none => none
  else none

def colorQLightS : String := "color=\"light"
def colorQLight : List Char := colorQLightS.data

/-- Group 2 (quoted) at a chunk boundary: `color="light\w+"`, rewritten to
`fillcolor="light\w+"`, then group 3. -/
def tryRewriteQ (fuel : Nat) (t : List Char) : Option (List Char × List Char) :=
  if colorQLight.isPrefixOf t then
    let t2 := t.drop colorQLight.length
    let w2 := t2.takeWhile isWordChar
    if w2.isEmpty then none
    else
      match t2.drop w2.length with
      | c :: r =>
        if c == quoteChar then
          match parseG3 fuel r with
          | some p => some (fillStr ++ colorQLight ++ w2 ++ c :: p.1, p.2)
          | none => none
        else none
      | [] => none
  else none

/-- Matcher for the whole node-rewrite pattern at one position: `\w+\s*\[`,
then the greedy chunk loop backtracking from the most chunks down, then the
group-2 attempt `tryFn` and group 3. -/
def matchColorAt (tryFn : Nat → List Char → Option (List Char × List Char))
    (s : List Char) : Option (List Char × List Char) :=
  let w := s.takeWhile isWordChar
  if w.isEmpty then none
  else
    let t1 := s.drop w.length
    let u := t1.takeWhile pyIsSpace
    match t1.drop u.length with
    | c :: t3 =>
      if c == lbrChar then
        (chunkBoundaries t3.length t3).reverse.findSome? fun p =>
          (tryFn t3.length p.2).map fun q => (w ++ u ++ c :: p.1 ++ q.1, q.2)
      else none
    | [] => none

/-- Matcher for `(\w+\s*\[)([^\]]+)(\])`; yields the prefix through the
opening bracket, the attribute text, and the rest after the bracket. -/
def matchNodeAt (s : List Char) : Option (List Char × (List Char × List Char)) :=
  let w := s.takeWhile isWordChar
  if w.isEmpty then none
  else
    let t1 := s.drop w.length
    let u := t1.takeWhile pyIsSpace
    match t1.drop u.length with
    | c :: t3 =>
      if c == lbrChar then
        let attrs := t3.takeWhile (fun d => d != rbrChar)
        if attrs.isEmpty then none
        else
          match t3.drop attrs.length with
          | d :: rest => if d == rbrChar then some (w ++ u ++ [c], (attrs, rest)) else none
          | [] => none
      else none
    | [] => none

/-- Turn a per-block attribute rewriter into a matcher for the driver. -/
def nodeMatcher (f : List Char → List Char) (s : List Char) :
    Option (List Char × List Char) :=
  (matchNodeAt s).map fun p => (p.1 ++ f p.2.1 ++ [rbrChar], p.2.2)

def lastIsComma (l : List Char) : Bool := l.getLast? == some commaChar

/-- The `ensure_fontcolor` replacement of `fix_color_attributes`: append
`fontcolor=black` to an attribute list that does not contain `fontcolor=`. -/
def ensure_fontcolor (attrs : List Char) : List Char :=
  if containsLit fontcolorEq attrs then attrs
  else if lastIsComma (pyStrip attrs) then attrs ++ spFontBlack
  else attrs ++ commaFontBlack

def styleFilledIn (s : List Char) : Bool :=
  containsLit styleFilled s || containsLit styleFilledQ s

/-- `fix_color_attributes` of `backend/core/utils.py`. -/
def fix_color_attributes (s : List Char) : List Char :=
  if styleFilledIn s then
    reSubAll (nodeMatcher ensure_fontcolor)
      (reSubAll (matchColorAt tryRewriteQ) (reSubAll (matchColorAt tryRewrite) s))
  else s

/-! ## `fix_unsupported_colors`

For each entry of the colour table, four global substitutions
`fillcolor=U\b`, `fillcolor="U"\b`, `color=U\b`, `color="U"\b` (no flags),
then the `(\w+\s*\[)([^\]]+)(\])` contrast pass `optimize_text_contrast`.
-/

/-- Literal substitution with a trailing `\b`: the boundary test `bd` is
applied to the character following the matched literal.  Each step consumes
at least one character, so the input length is enough fuel. -/
def subLitFuel (lit rep : List Char) (bd : Option Char → Bool) :
    Nat → List Char → List Char
  | 0, s => s
  | _ + 1, [] => []
  | n + 1, c :: cs =>
    if !lit.isEmpty && lit.isPrefixOf (c :: cs) && bd ((c :: cs).drop lit.length).head? then
      rep ++ subLitFuel lit rep bd n ((c :: cs).drop lit.length)
    else c :: subLitFuel lit rep bd n cs

def subLit (lit rep : List Char) (bd : Option Char → Bool) (s : List Char) : List Char :=
  subLitFuel lit rep bd s.length s

/-- Boundary after a literal ending in a word character: `\b` holds when the
next character is absent or not a word character. -/
def bdWord : Option Char → Bool
  | none => true
  | some c => !isWordChar c

/-- Boundary after a literal ending in a closing quote: `\b` holds only when
the next character is a word character. -/
def bdQuote : Option Char → Bool
  | none => false
  | some c => isWordChar c

def quoteWrap (u : List Char) : List Char := quoteChar :: u ++ [quoteChar]

/-- One entry of the colour table: the four substitutions in source order. -/
def applyEntry (u v : List Char) (s : List Char) : List Char :=
  subLit (colorEq ++ quoteWrap u) (colorEq ++ quoteWrap v) bdQuote
    (subLit (colorEq ++ u) (colorEq ++ v) bdWord
      (subLit (fillcolorEq ++ quoteWrap u) (fillcolorEq ++ quoteWrap v) bdQuote
        (subLit (fillcolorEq ++ u) (fillcolorEq ++ v) bdWord s)))

def cLightgrayS : String := "lightgray"
def cLightgreyS : String := "lightgrey"
def cLightblueS : String := "lightblue"
def cLightgreenS : String := "lightgreen"
def cLightcyanS : String := "lightcyan"
def cLightpinkS : String := "lightpink"
def cLightyellowS : String := "lightyellow"
def cLightsalmonS : String := "lightsalmon"
def cLightcoralS : String := "lightcoral"
def cLightsteelblueS : String := "lightsteelblue"
def cLightseagreenS : String := "lightseagreen"
def cLightslategrayS : String := "lightslategray"
def cLightslategreyS : String := "lightslategrey"
def cWhiteS : String := "white"
def cCyanS : String := "cyan"
def cYellowS : String := "yellow"
def cPinkS : String := "pink"
def cOrangeS : String := "orange"
def cGrayS : String := "gray"
def cBlueS : String := "blue"
def cPurpleS : String := "purple"
def cRedS : String := "red"
def cGreenS : String := "green"
def cBlackS : String := "black"

/-- The `color_mapping` dictionary, in insertion order. -/
def colorPairs : List (List Char × List Char) :=
  [(cLightgrayS.data, cWhiteS.data),
   (cLightgreyS.data, cWhiteS.data),
   (cLightblueS.data, cCyanS.data),
   (cLightgreenS.data, cYellowS.data),
   (cLightcyanS.data, cCyanS.data),
   (cLightpinkS.data, cPinkS.data),
   (cLightyellowS.data, cYellowS.data),
   (cLightsalmonS.data, cOrangeS.data),
   (cLightcoralS.data, cPinkS.data),
   (cLightsteelblueS.data, cCyanS.data),
   (cLightseagreenS.data, cYellowS.data),
   (cLightslategrayS.data, cWhiteS.data),
   (cLightslategreyS.data, cWhiteS.data)]

def applyMappings (s : List Char) : List Char :=
  colorPairs.foldl (fun acc p => applyEntry p.1 p.2 acc) s

/-- The `dark_colors` set: backgrounds that require white text. -/
def darkColors : List (List Char) :=
  [cBlueS.data, cPurpleS.data, cRedS.data, cGreenS.data]

/-- The `light_colors` set: backgrounds that work with black text. -/
def lightColors : List (List Char) :=
  [cWhiteS.data, cYellowS.data, cCyanS.data, cPinkS.data, cOrangeS.data, cGrayS.data]

def takeWord (t : List Char) : List Char := t.takeWhile isWordChar

/-- One attempt of `re.search(r'fillcolor=(["\x27]?)(\w+)\1', ...)` at the
current position; yields group 2.  When the optional quote is taken, the
same quote must close the word; the empty-group backtrack then fails on the
quote character itself. -/
def tryFillAt (t : List Char) : Option (List Char) :=
  if fillcolorEq.isPrefixOf t then
    match t.drop fillcolorEq.length with
    | c :: r =>
      if c == quoteChar || c == squoteChar then
        let w := takeWord r
        if w.isEmpty then none
        else
          match r.drop w.length with
          | d :: _ => if d == c then some w else none
          | [] => none
      else
        let w := takeWord (c :: r)
        if w.isEmpty then none else some w
    | [] => none
  else none

/-- Leftmost match of the fillcolor-value pattern inside an attribute list. -/
def fillcolorSearch : List Char → Option (List Char)
  | [] => none
  | c :: cs =>
    match tryFillAt (c :: cs) with
    | some w => some w
    | none => fillcolorSearch cs

/-- One attempt of the pattern `fontcolor=(["\x27]?)\w+\1` at the current
position; yields the matched length. -/
def matchFontAt (t : List Char) : Option Nat :=
  if fontcolorEq.isPrefixOf t then
    match t.drop fontcolorEq.length with
    | c :: r =>
      if c == quoteChar || c == squoteChar then
        let w := takeWord r
        if w.isEmpty then none
        else
          match r.drop w.length with
          | d :: _ => if d == c then some (fontcolorEq.length + w.length + 2) else none
          | [] => none
      else
        let w := takeWord (c :: r)
        if w.isEmpty then none else some (fontcolorEq.length + w.length)
    | [] => none
  else none

/-- Matcher for `re.sub(r'fontcolor=(["\x27]?)\w+\1', 'fontcolor=OPT', ...)`. -/
def fontMatcher (opt : List Char) (t : List Char) : Option (List Char × List Char) :=
  (matchFontAt t).map fun n => (fontcolorEq ++ opt, t.drop n)

/-- The `optimize_text_contrast` replacement of `fix_unsupported_colors`. -/
def optimize_text_contrast (attrs : List Char) : List Char :=
  match fillcolorSearch attrs with
  | none => attrs
  | some cw =>
    let color := lowerList cw
    let opt := if darkColors.contains color then cWhiteS.data else cBlackS.data
    if containsLit fontcolorEq attrs then reSubAll (fontMatcher opt) attrs
    else if lastIsComma (pyStrip attrs) then attrs ++ spaceChar :: fontcolorEq ++ opt
    else attrs ++ commaChar :: spaceChar :: fontcolorEq ++ opt

/-- `fix_unsupported_colors` of `backend/core/utils.py`. -/
def fix_unsupported_colors (s : List Char) : List Char :=
  reSubAll (nodeMatcher optimize_text_contrast) (applyMappings s)

/-! ## `clean_dot_code` -/

/-- `clean_dot_code` of `backend/core/utils.py`: the full normalizer. -/
def clean_dot_code (raw : List Char) : List Char :=
  if pyStrip raw = [] then []
  else
    pyStrip (fix_unsupported_colors (fix_color_attributes
      (anchorStage (sufStage (preStage (tickStage (fenceStage (pyStrip raw))))))))

/-! ## `validate_dot_syntax` (structural part)

The pure checks performed before the network probe, lines 282-296 of the
source: emptiness, keyword, and brace balance.
-/

inductive ValidationResult
  | emptyMarkup
  | missingKeyword
  | unbalancedBraces
  | passedStructural
deriving DecidableEq

/-- Structural part of `validate_dot_syntax`: `passedStructural` means all
three checks succeeded and control reaches the external rendering probe. -/
def validate_dot_syntax (s : List Char) : ValidationResult :=
  if pyStrip s = [] then .emptyMarkup
  else if (diLit.isPrefixOf (pyStrip (lowerList s)) ||
      gLit.isPrefixOf (pyStrip (lowerList s))) = false then .missingKeyword
  else if s.count lcurlChar ≠ s.count rcurlChar then .unbalancedBraces
  else .passedStructural

/-! ## Helper lemmas -/

set_option maxRecDepth 400000

theorem self_mem_tails (l : List Char) : l ∈ l.tails :=
  (List.mem_tails l l).mpr (List.suffix_refl l)

theorem mem_tails_lift {r cs : List Char} (c : Char) (h : r ∈ cs.tails) :
    r ∈ (c :: cs).tails := by
  rw [List.tails_cons]
  exact List.mem_cons_of_mem _ h

theorem tail_mem_tails {c : Char} {r s : List Char} (h : (c :: r) ∈ s.tails) :
    r ∈ s.tails := by
  rw [List.mem_tails] at h ⊢
  exact (List.suffix_cons c r).trans h

theorem containsLit_eq_false (lit s : List Char)
    (h : ∀ r ∈ s.tails, lit.isPrefixOf r = false) : containsLit lit s = false := by
  induction s with
  | nil =>
    have h0 := h [] (self_mem_tails [])
    cases lit with
    | nil => simp [List.isPrefixOf] at h0
    | cons a l => simp [containsLit]
  | cons c cs ih =>
    have h0 := h (c :: cs) (self_mem_tails (c :: cs))
    unfold containsLit
    rw [h0, Bool.false_or]
    exact ih fun r hr => h r (mem_tails_lift c hr)

theorem fillcolorSearch_eq_none (s : List Char)
    (h : ∀ r ∈ s.tails, fillcolorEq.isPrefixOf r = false) :
    fillcolorSearch s = none := by
  induction s with
  | nil => rfl
  | cons c cs ih =>
    have h0 := h (c :: cs) (self_mem_tails (c :: cs))
    have ht : tryFillAt (c :: cs) = none := by
      unfold tryFillAt
      simp [h0]
    unfold fillcolorSearch
    rw [ht]
    exact ih fun r hr => h r (mem_tails_lift c hr)

theorem diLit_decompose : diLit = 'd' :: 'i' :: gLit := by decide

theorem ciStarts_gLit_of_diLit {a b : Char} {t2 : List Char}
    (hd : ciStarts diLit (a :: b :: t2) = true) : ciStarts gLit t2 = true := by
  unfold ciStarts at hd ⊢
  rw [beq_iff_eq] at hd
  rw [beq_iff_eq]
  have h7 : diLit.length = 7 := by decide
  rw [h7] at hd
  have h5 : gLit.length = 5 := by decide
  rw [h5]
  rw [diLit_decompose] at hd
  have hshape : (a :: b :: t2).take 7 = a :: b :: t2.take 5 := rfl
  rw [hshape] at hd
  have hmap : lowerList (a :: b :: t2.take 5) =
      pyToLower a :: pyToLower b :: lowerList (t2.take 5) := rfl
  rw [hmap] at hd
  simp only [List.cons.injEq] at hd
  exact hd.2.2

theorem ciStarts_short {t : List Char} (hlen : t.length < 7) :
    ciStarts diLit t = false := by
  unfold ciStarts
  rw [beq_eq_false_iff_ne]
  intro heq
  have h1 : (lowerList (t.take diLit.length)).length = diLit.length := by rw [heq]
  have h2 : diLit.length = 7 := by decide
  unfold lowerList at h1
  rw [List.length_map, List.length_take, h2] at h1
  omega

theorem matchKwAt_eq_false {s : List Char}
    (h : ∀ r ∈ s.tails, graphKwSpaceAt r = false)
    {t : List Char} (ht : t ∈ s.tails) : matchKwAt t = false := by
  have hg := h t ht
  unfold graphKwSpaceAt at hg
  unfold matchKwAt
  rw [hg, Bool.or_false]
  rcases t with _ | ⟨a, _ | ⟨b, t2⟩⟩
  · rw [ciStarts_short (by decide)]
    rfl
  · rw [ciStarts_short (by simp)]
    rfl
  · by_cases hd : ciStarts diLit (a :: b :: t2) = true
    · have hgt2 : ciStarts gLit t2 = true := ciStarts_gLit_of_diLit hd
      have ht2 : t2 ∈ s.tails := tail_mem_tails (tail_mem_tails ht)
      have h2 := h t2 ht2
      unfold graphKwSpaceAt at h2
      rw [hgt2, Bool.true_and] at h2
      have hws : wsAfterAt (a :: b :: t2) 7 = wsAfterAt t2 5 := rfl
      rw [hws, h2, Bool.and_false]
    · have hd' : ciStarts diLit (a :: b :: t2) = false := by
        cases hcs : ciStarts diLit (a :: b :: t2) with
        | false => rfl
        | true => exact absurd hcs hd
      rw [hd', Bool.false_and]

theorem searchGraph_eq_none (s : List Char)
    (h : ∀ r ∈ s.tails, graphKwSpaceAt r = false) : searchGraph s = none := by
  induction s with
  | nil => rfl
  | cons c cs ih =>
    have h0 : matchKwAt (c :: cs) = false := matchKwAt_eq_false h (self_mem_tails _)
    unfold searchGraph
    rw [h0]
    simp only [Bool.false_eq_true, if_false]
    exact ih fun r hr => h r (mem_tails_lift c hr)

theorem dropWhile_mem_tails (p : Char → Bool) (s : List Char) :
    s.dropWhile p ∈ s.tails := by
  induction s with
  | nil => exact self_mem_tails []
  | cons c cs ih =>
    rw [List.dropWhile_cons]
    by_cases hp : p c = true
    · rw [if_pos hp]
      exact mem_tails_lift c ih
    · rw [if_neg hp]
      exact self_mem_tails _

theorem matchStartGraph_eq_false (s : List Char)
    (h : ∀ r ∈ s.tails, graphKwSpaceAt r = false) : matchStartGraph s = false :=
  matchKwAt_eq_false h (dropWhile_mem_tails pyIsSpace s)

theorem anchorStage_eq_self (s : List Char)
    (h : ∀ r ∈ s.tails, graphKwSpaceAt r = false) : anchorStage s = s := by
  unfold anchorStage
  rw [matchStartGraph_eq_false s h, searchGraph_eq_none s h]
  rfl

/-! ## Concrete inputs used by the claim theorems -/

def c1inS : String := "Graph: Graph: hello"
def c1midS : String := "Graph: hello"
def c1outS : String := "hello"
def c2inS : String := "digraph g \x7b A [fillcolor=blue, fontcolor=\"dark gray\"] \x7d"
def c2attrsS : String := "fillcolor=blue, fontcolor=\"dark gray\""
def c3inS : String := "digraph g \x7b A [style=filled, label=\"color=lightblue text\"] \x7d"
def c3outS : String := "digraph g \x7b A [style=filled, label=\"color=cyan text\", fontcolor=black] \x7d"
def c4inS : String := "A [fillcolor=\"lightblue\"]"
def c4outS : String := "A [fillcolor=\"lightblue\", fontcolor=black]"
def c5inS : String := "prose ```graph G \x7b A -> B \x7d``` trailing"
def c5fenceS : String := "graph G \x7b A -> B \x7d"
def c5actualS : String := "G \x7b A -> B \x7d"
def c6inS : String := "Sure! digraph G \x7bA->B;\x7d"
def c6outS : String := "digraph G \x7bA->B;\x7d"
def digraphGS : String := "digraph G"
def c6noKwS : String := "hello world"
def c8wsS : String := "   "
def c9inS : String := "digraph G \x7b node [shape=box, style=filled]; A [label=Foo]; A -> B; \x7d"
def c9outS : String :=
  "digraph G \x7b node [shape=box, style=filled, fontcolor=black]; A [label=Foo, fontcolor=black]; A -> B; \x7d"
def c9noStyleS : String := "digraph G \x7b A [label=Foo] \x7d"
def c9attrsS : String := "shape=box, style=filled"
def c10attrsS : String := "shape=box, fontcolor=red, color=blue"

/-! ## Claim theorems -/

/-- Claim C1 (idempotence of the normalizer) fails on the code: on the input
`"Graph: Graph: hello"` the first run strips one conversational `Graph:`
prefix and leaves a second one, which the second run then strips, so
`clean_dot_code (clean_dot_code s) ≠ clean_dot_code s`. -/
theorem clean_dot_code_not_idempotent :
    clean_dot_code c1inS.data = c1midS.data ∧
    clean_dot_code (clean_dot_code c1inS.data) = c1outS.data ∧
    clean_dot_code (clean_dot_code c1inS.data) ≠ clean_dot_code c1inS.data := by
  refine ⟨by decide, by decide, ?_⟩
  intro h
  rw [show clean_dot_code c1inS.data = c1midS.data from by decide] at h
  exact absurd h (by decide)

/-- Claim C2 (the contrast stage forces font-color per the dark/light table
on every block carrying a fill-color) fails on the code: the block
`A [fillcolor=blue, fontcolor="dark gray"]` carries the reserved dark fill
`blue`, yet the whole normalizer returns the input unchanged, because the
replacement pattern `fontcolor=(["']?)\w+\1` cannot match the quoted
multi-word value, so the font-color is not forced to white. -/
theorem contrast_override_not_forced :
    clean_dot_code c2inS.data = c2inS.data ∧
    fillcolorSearch c2attrsS.data = some cBlueS.data ∧
    optimize_text_contrast c2attrsS.data = c2attrsS.data := by
  refine ⟨by decide, by decide, by decide⟩

/-- Claim C3 (the rewrite passes never change quoted label text) fails on
the code: the palette substitution `color=lightblue → color=cyan` is a
global textual replacement, so a label whose text contains
`color=lightblue` is rewritten, and the token `lightblue` disappears from
the normalized output even though it only occurred inside the label. -/
theorem label_text_rewritten :
    clean_dot_code c3inS.data = c3outS.data ∧
    containsLit cLightblueS.data c3inS.data = true ∧
    containsLit cLightblueS.data (clean_dot_code c3inS.data) = false := by
  refine ⟨by decide, by decide, ?_⟩
  rw [show clean_dot_code c3inS.data = c3outS.data from by decide]
  decide

/-- Claim C4 (palette canonicalization replaces quoted and unquoted light
colors, and the table only produces approved colors): the table half holds
(conjunct three), but the quoted half fails on the code: the pattern
`fillcolor="lightblue"\b` places a word boundary after the closing quote,
which is satisfied only when a word character follows, so the quoted value
in `A [fillcolor="lightblue"]` is left in place. -/
theorem quoted_palette_not_replaced :
    fix_unsupported_colors c4inS.data = c4outS.data ∧
    containsLit cLightblueS.data (fix_unsupported_colors c4inS.data) = true ∧
    colorPairs.all (fun p => lightColors.contains p.2) = true := by
  refine ⟨by decide, ?_, by decide⟩
  rw [show fix_unsupported_colors c4inS.data = c4outS.data from by decide]
  decide

/-- Claim C5 (fence extraction; on the fence example the normalizer yields
exactly the fenced interior `graph G ... B \x7d`) fails on the code: the
fence stage does extract that interior (conjunct one), but the
conversational-prefix pattern `^Graph:?\s*` — colon optional and
case-insensitive — then strips the leading `graph ` keyword, so the
normalizer returns `G \x7b A -> B \x7d` instead. -/
theorem fence_interior_keyword_stripped :
    fenceStage (pyStrip c5inS.data) = c5fenceS.data ∧
    clean_dot_code c5inS.data = c5actualS.data ∧
    clean_dot_code c5inS.data ≠ c5fenceS.data := by
  refine ⟨by decide, by decide, ?_⟩
  rw [show clean_dot_code c5inS.data = c5actualS.data from by decide]
  decide

/-- Claim C6: keyword anchoring.  On `"Sure! digraph G \x7bA->B;\x7d"` the
normalizer discards the prose before the first `digraph` and the output
starts with `digraph G`; and when no (case-insensitive) `graph`-plus-
whitespace occurrence exists anywhere, the anchoring stage returns its
input unmodified. -/
theorem keyword_anchoring :
    clean_dot_code c6inS.data = c6outS.data ∧
    digraphGS.data.isPrefixOf (clean_dot_code c6inS.data) = true ∧
    ∀ s : List Char, (∀ r ∈ s.tails, graphKwSpaceAt r = false) →
      anchorStage s = s := by
  refine ⟨by decide, ?_, fun s h => anchorStage_eq_self s h⟩
  rw [show clean_dot_code c6inS.data = c6outS.data from by decide]
  decide

/-- Witness for C6: the anchoring stage leaves `"hello world"` (which
contains no graph keyword) unmodified. -/
theorem keyword_anchoring_w : anchorStage c6noKwS.data = c6noKwS.data :=
  keyword_anchoring.2.2 c6noKwS.data (by decide)

/-- Claim C7: the structural validator fails with `emptyMarkup` exactly on
whitespace-only input; otherwise with `missingKeyword` exactly when the
lowercased, trimmed text starts with neither `digraph` nor `graph`;
otherwise with `unbalancedBraces` exactly when the brace counts differ. -/
theorem validate_dot_syntax_cases (s : List Char) :
    ( validate_dot_syntax s = .emptyMarkup ↔ pyStrip s = []) ∧
    ( validate_dot_syntax s = .missingKeyword ↔
      (pyStrip s ≠ [] ∧
       (diLit.isPrefixOf (pyStrip (lowerList s)) ||
        gLit.isPrefixOf (pyStrip (lowerList s))) = false)) ∧
    ( validate_dot_syntax s = .unbalancedBraces ↔
      (pyStrip s ≠ [] ∧
       (diLit.isPrefixOf (pyStrip (lowerList s)) ||
        gLit.isPrefixOf (pyStrip (lowerList s))) = true ∧
       s.count lcurlChar ≠ s.count rcurlChar)) := by
  unfold validate_dot_syntax
  by_cases h1 : pyStrip s = []
  · rw [if_pos h1]
    exact ⟨⟨fun _ => h1, fun _ => rfl⟩,
           ⟨fun hx => absurd hx (by decide), fun hx => absurd h1 hx.1⟩,
           ⟨fun hx => absurd hx (by decide), fun hx => absurd h1 hx.1⟩⟩
  · rw [if_neg h1]
    by_cases h2 : (diLit.isPrefixOf (pyStrip (lowerList s)) ||
        gLit.isPrefixOf (pyStrip (lowerList s))) = false
    · rw [if_pos h2]
      exact ⟨⟨fun hx => absurd hx (by decide), fun hx => absurd hx h1⟩,
             ⟨fun _ => ⟨h1, h2⟩, fun _ => rfl⟩,
             ⟨fun hx => absurd hx (by decide),
              fun hx => absurd (h2.symm.trans hx.2.1) (by decide)⟩⟩
    · rw [if_neg h2]
      have h2t : (diLit.isPrefixOf (pyStrip (lowerList s)) ||
          gLit.isPrefixOf (pyStrip (lowerList s))) = true := by
        cases hh : (diLit.isPrefixOf (pyStrip (lowerList s)) ||
            gLit.isPrefixOf (pyStrip (lowerList s))) with
        | false => exact absurd hh h2
        | true => rfl
      by_cases h3 : s.count lcurlChar ≠ s.count rcurlChar
      · rw [if_pos h3]
        exact ⟨⟨fun hx => absurd hx (by decide), fun hx => absurd hx h1⟩,
               ⟨fun hx => absurd hx (by decide),
                fun hx => absurd (hx.2.symm.trans h2t) (by decide)⟩,
               ⟨fun _ => ⟨h1, h2t, h3⟩, fun _ => rfl⟩⟩
      · rw [if_neg h3]
        exact ⟨⟨fun hx => absurd hx (by decide), fun hx => absurd hx h1⟩,
               ⟨fun hx => absurd hx (by decide),
                fun hx => absurd (hx.2.symm.trans h2t) (by decide)⟩,
               ⟨fun hx => absurd hx (by decide), fun hx => absurd hx.2.2 h3⟩⟩

/-- Claim C8: whitespace-only (or empty) input makes the normalizer return
the empty string immediately. -/
theorem clean_dot_code_empty (s : List Char) (h : pyStrip s = []) :
    clean_dot_code s = [] := by
  unfold clean_dot_code
  rw [if_pos h]

/-- Witness for C8 at the input of three spaces. -/
theorem clean_dot_code_empty_w : clean_dot_code c8wsS.data = [] :=
  clean_dot_code_empty c8wsS.data (by decide)

/-- Claim C9: whenever `style=filled` occurs, the font-color insertion pass
appends `, fontcolor=black` to every bracketed attribute list without a
`fontcolor=` occurrence (stated for attribute lists that do not already end
in a comma, where the source inserts the comma itself), including
graph-level default blocks such as `node [shape=box, style=filled]`; with
no `style=filled` in the input the stage changes nothing. -/
theorem fontcolor_insertion_all_blocks :
    (∀ attrs : List Char,
        (∀ r ∈ attrs.tails, fontcolorEq.isPrefixOf r = false) →
        lastIsComma (pyStrip attrs) = false →
        ensure_fontcolor attrs = attrs ++ commaFontBlack) ∧
    fix_color_attributes c9inS.data = c9outS.data ∧
    fix_color_attributes c9noStyleS.data = c9noStyleS.data := by
  refine ⟨?_, by decide, by decide⟩
  intro attrs h hc
  have hcl : containsLit fontcolorEq attrs = false := containsLit_eq_false _ _ h
  unfold ensure_fontcolor
  rw [hcl, hc]
  rfl

/-- Witness for C9 on the graph-level default attribute list
`shape=box, style=filled`. -/
theorem fontcolor_insertion_all_blocks_w :
    ensure_fontcolor c9attrsS.data = c9attrsS.data ++ commaFontBlack :=
  fontcolor_insertion_all_blocks.1 c9attrsS.data (by decide) (by decide)

/-- Claim C10: the contrast re-optimization replacement leaves every
attribute list without a `fillcolor=` occurrence unchanged, including any
font-color value already present in it. -/
theorem contrast_noop_without_fillcolor (attrs : List Char)
    (h : ∀ r ∈ attrs.tails, fillcolorEq.isPrefixOf r = false) :
    optimize_text_contrast attrs = attrs := by
  have hn : fillcolorSearch attrs = none := fillcolorSearch_eq_none attrs h
  unfold optimize_text_contrast
  rw [hn]

/-- Witness for C10 on an attribute list that already carries a font-color
but no fill-color. -/
theorem contrast_noop_without_fillcolor_w :
    optimize_text_contrast c10attrsS.data = c10attrsS.data :=
  contrast_noop_without_fillcolor c10attrsS.data (by decide)

end LexiGraph
